import Mathlib

/-!
Verification of `go-testlicense` (package `testlicense`, file `check.go`).

The Go package locates a license file in a directory by an exact,
case-insensitive filename allowlist, submits its bytes to the external
scorer `licensecheck.Cover`, and turns the result into a pass/fail
outcome for a test run.

Shallow embedding conventions:
* Go strings are Lean `String`s (sequences of Unicode scalar values).
* File contents (`[]byte`) are `List UInt8`.
* `float64` percentages are modelled as `ℚ`; the `fmt` verbs `%f` and
  `%3.1f` are implemented on `ℚ` (fixed-point, round half up).
* A Go `error` is `GoError`: the sentinel `os.ErrNotExist` (whose
  message is "file does not exist") or an `errors.New`/`fmt.Errorf`
  error carrying its message string.  A `nil`-able error is
  `Option GoError`.
* The `DirnamesReader` capability is modelled by the outcome of its
  single `Readdirnames(0)` call: `Except GoError (List String)`.
* `ioutil.ReadFile` (which resolves a bare filename relative to the
  process working directory) is a parameter
  `readFile : String → Except GoError (List UInt8)`.
* The external scorer `licensecheck.Cover(b, Options{})` is a parameter
  `cover : List UInt8 → Option Coverage` (`ok = false` maps to `none`).
* `testing.T` is observed through the message passed to `t.Fatal`, if
  any: the test wrappers return `Option String`.
-/

set_option maxRecDepth 8192

namespace Testlicense

/-- A Go `error` value as observed by this package: the sentinel
`os.ErrNotExist`, or an error built by `errors.New`/`fmt.Errorf` from a
message string. -/
inductive GoError where
  | errNotExist : GoError
  | errString : String → GoError
deriving DecidableEq, Repr

/-- `Error()` of a `GoError`: `os.ErrNotExist` prints
"file does not exist". -/
def GoError.message : GoError → String
  | .errNotExist => "file does not exist"
  | .errString m => m

/-!
Case mapping.  `strings.ToLower`/`strings.ToUpper` apply the Unicode
simple case mapping (`unicode.ToLower`/`unicode.ToUpper`) to each rune.
We embed the restriction of those tables to the ASCII letters plus the
dotted/dotless I pair U+0130 (İ, simple lowercase U+0069 i) and
U+0131 (ı, simple uppercase U+0049 I); every other code point of the
model is fixed, as the omitted table entries never map into the ASCII
range used by the allowlist.
-/

/-- Fragment of the Unicode simple lowercase table used by Go
`unicode.ToLower`: the ASCII uppercase letters, plus U+0130 (İ) whose
simple lowercase is `i`. -/
def lowerTable : List (Char × Char) :=
  [('A', 'a'), ('B', 'b'), ('C', 'c'), ('D', 'd'), ('E', 'e'), ('F', 'f'),
   ('G', 'g'), ('H', 'h'), ('I', 'i'), ('J', 'j'), ('K', 'k'), ('L', 'l'),
   ('M', 'm'), ('N', 'n'), ('O', 'o'), ('P', 'p'), ('Q', 'q'), ('R', 'r'),
   ('S', 's'), ('T', 't'), ('U', 'u'), ('V', 'v'), ('W', 'w'), ('X', 'x'),
   ('Y', 'y'), ('Z', 'z'), ('İ', 'i')]

/-- Fragment of the Unicode simple uppercase table used by Go
`unicode.ToUpper`: the ASCII lowercase letters, plus U+0131 (ı) whose
simple uppercase is `I`. -/
def upperTable : List (Char × Char) :=
  [('a', 'A'), ('b', 'B'), ('c', 'C'), ('d', 'D'), ('e', 'E'), ('f', 'F'),
   ('g', 'G'), ('h', 'H'), ('i', 'I'), ('j', 'J'), ('k', 'K'), ('l', 'L'),
   ('m', 'M'), ('n', 'N'), ('o', 'O'), ('p', 'P'), ('q', 'Q'), ('r', 'R'),
   ('s', 'S'), ('t', 'T'), ('u', 'U'), ('v', 'V'), ('w', 'W'), ('x', 'X'),
   ('y', 'Y'), ('z', 'Z'), ('ı', 'I')]

/-- First value bound to key `c` in a case table, if any. -/
def tableGet (t : List (Char × Char)) (c : Char) : Option Char :=
  match t with
  | [] => none
  | (k, v) :: rest => if c = k then some v else tableGet rest c

/-- `unicode.ToLower` on one rune (modelled fragment). -/
def toLowerChar (c : Char) : Char := (tableGet lowerTable c).getD c

/-- `unicode.ToUpper` on one rune (modelled fragment). -/
def toUpperChar (c : Char) : Char := (tableGet upperTable c).getD c

/-- Go `strings.ToLower`. -/
def toLowerStr (s : String) : String := ⟨s.data.map toLowerChar⟩

/-- Go `strings.ToUpper`. -/
def toUpperStr (s : String) : String := ⟨s.data.map toUpperChar⟩

/-- A string all of whose code points are ASCII. -/
def isASCIIStr (s : String) : Prop := ∀ c ∈ s.data, c.toNat < 128

instance (s : String) : Decidable (isASCIIStr s) := by
  unfold isASCIIStr; infer_instance

/-- The exported allowlist `Filenames` of `check.go`, in source order. -/
def Filenames : List String :=
  ["COPYING",
   "COPYING.md",
   "COPYING.markdown",
   "COPYING.txt",
   "LICENCE",
   "LICENCE.md",
   "LICENCE.markdown",
   "LICENCE.txt",
   "LICENSE",
   "LICENSE.md",
   "LICENSE.markdown",
   "LICENSE.txt",
   "LICENSE-2.0.txt",
   "LICENCE-2.0.txt",
   "LICENSE-APACHE",
   "LICENCE-APACHE",
   "LICENSE-APACHE-2.0.txt",
   "LICENCE-APACHE-2.0.txt",
   "LICENSE-MIT",
   "LICENCE-MIT",
   "LICENSE.MIT",
   "LICENCE.MIT",
   "LICENSE.code",
   "LICENCE.code",
   "LICENSE.docs",
   "LICENCE.docs",
   "LICENSE.rst",
   "LICENCE.rst",
   "MIT-LICENSE",
   "MIT-LICENCE",
   "MIT-LICENSE.md",
   "MIT-LICENCE.md",
   "MIT-LICENSE.markdown",
   "MIT-LICENCE.markdown",
   "MIT-LICENSE.txt",
   "MIT-LICENCE.txt",
   "MIT_LICENSE",
   "MIT_LICENCE",
   "UNLICENSE",
   "UNLICENCE"]

/-- One step of building the unexported map `filenames`
(`filenames[strings.ToLower(v)] = struct{}{}`): inserting an
already-present key into a Go map leaves it unchanged. -/
def mapInsert (m : List String) (k : String) : List String :=
  if k ∈ m then m else m ++ [k]

/-- The unexported lookup set `filenames`, built by the package `init`
function: the keys inserted by iterating over `Filenames`, each key
lowercased. -/
def filenames : List String :=
  Filenames.foldl (fun m v => mapInsert m (toLowerStr v)) []

/-- `IsLicenseFilename` of `check.go`: membership of
`strings.ToLower(s)` in the lookup set `filenames`. -/
def IsLicenseFilename (s : String) : Bool :=
  decide (toLowerStr s ∈ filenames)

/-! Fixed-point rendering of `float64` percentages by the `fmt` verbs
used in `check.go` (`%f` = 6 decimals, `%3.1f` = 1 decimal, minimum
width 3), modelled on `ℚ`, rounding half up. -/

/-- Left-pad a digit string with zeros to width `w`. -/
def padZeros (w : Nat) (s : String) : String :=
  ⟨List.replicate (w - s.length) '0'⟩ ++ s

/-- Left-pad a string with spaces to width `w`. -/
def padSpaces (w : Nat) (s : String) : String :=
  ⟨List.replicate (w - s.length) ' '⟩ ++ s

/-- Render `q` with exactly `decimals` digits after the point.  The
scaled value is `|q| * 10 ^ decimals` rounded half up, computed on the
reduced numerator and denominator:
`⌊|q| * 10 ^ d + 1 / 2⌋ = (2 * |num| * 10 ^ d + den) / (2 * den)`. -/
def fmtFixed (decimals : Nat) (q : ℚ) : String :=
  let sign := if q < 0 then "-" else ""
  let scaled : Nat := (2 * q.num.natAbs * 10 ^ decimals + q.den) / (2 * q.den)
  sign ++ toString (scaled / 10 ^ decimals) ++ "."
       ++ padZeros decimals (toString (scaled % 10 ^ decimals))

/-- The `fmt` verb `%f`. -/
def fmtF (q : ℚ) : String := fmtFixed 6 q

/-- The `fmt` verb `%3.1f`. -/
def fmt31 (q : ℚ) : String := padSpaces 3 (fmtFixed 1 q)

/-! The external scorer interface (`github.com/google/licensecheck`). -/

/-- `licensecheck.Type`, an enumerated license classification; its
identity is all this package uses, so it is modelled as `Nat`. -/
abbrev LType := Nat

/-- `licensecheck.Match`: one matched region, with the license name,
its type and the match percentage. -/
structure Match where
  name : String
  typ : LType
  percent : ℚ
deriving DecidableEq, Repr

/-- `licensecheck.Coverage`: overall percentage plus the matches, in
scorer order. -/
structure Coverage where
  percent : ℚ
  matchList : List Match
deriving DecidableEq, Repr

/-- `fmt.Sprintf("%s(%3.1f%%)", m.Name, m.Percent)`. -/
def fmtMatch (m : Match) : String :=
  m.name ++ "(" ++ fmt31 m.percent ++ "%)"

/-- The `for _, m := range cov.Match` loop of `assertLicense`: return
`nil` at the first match whose type equals `want`, otherwise append the
rendered match and continue; when the matches are exhausted, fail with
the comma-joined list. -/
def assertLoop (want : LType) (list : List String) : List Match → Option GoError
  | [] => some (.errString ("license does not match. found: "
      ++ String.intercalate "," list))
  | m :: rest =>
    if m.typ = want then none
    else assertLoop want (list ++ [fmtMatch m]) rest

/-- `assertLicense` of `check.go`.  `cover` is the external
`licensecheck.Cover(b, Options{})` collaborator (`none` = `ok` false). -/
def assertLicense (cover : List UInt8 → Option Coverage) (b : List UInt8)
    (want : LType) (percent : ℚ) : Option GoError :=
  match cover b with
  | none => some (.errString "license not found")
  | some cov =>
    if cov.percent < percent then
      some (.errString ("percentage " ++ fmtF cov.percent
        ++ " is less than wanted " ++ fmtF percent))
    else
      assertLoop want [] cov.matchList

/-! Directory scanning. -/

/-- Outcome of `ReadLicenseDir` (Go returns the triple
`(filename, contents, err)`). -/
structure ReadResult where
  filename : String
  contents : List UInt8
  err : Option GoError
deriving DecidableEq, Repr

/-- The `for _, filename = range names` loop of `ReadLicenseDir`: at
the first recognized name, `ioutil.ReadFile(filename)` is called (the
bare filename, resolved by `readFile`) and the triple is returned; if
no name is recognized, the result is `("", nil, os.ErrNotExist)`. -/
def scanNames (readFile : String → Except GoError (List UInt8)) :
    List String → ReadResult
  | [] => ⟨"", [], some .errNotExist⟩
  | n :: rest =>
    if IsLicenseFilename n then
      match readFile n with
      | .ok b => ⟨n, b, none⟩
      | .error e => ⟨n, [], some e⟩
    else scanNames readFile rest

/-- `ReadLicenseDir` of `check.go`.  `dir` is the `DirnamesReader`
capability, modelled by the outcome of its single `Readdirnames(0)`
call; `readFile` models `ioutil.ReadFile` on a bare filename (resolved
relative to the process working directory). -/
def ReadLicenseDir (readFile : String → Except GoError (List UInt8))
    (dir : Except GoError (List String)) : ReadResult :=
  match dir with
  | .error e => ⟨"", [], some e⟩
  | .ok names => scanNames readFile names

/-- `ReadLicense` of `check.go`: `os.Open(".")` (whose outcome is
`openDot`: an error, or the working directory listing capability),
then `ReadLicenseDir` on it. -/
def ReadLicense (readFile : String → Except GoError (List UInt8))
    (openDot : Except GoError (Except GoError (List String))) : ReadResult :=
  match openDot with
  | .error e => ⟨"", [], some e⟩
  | .ok dir => ReadLicenseDir readFile dir

/-- `AssertLicenseDir` of `check.go`: read the license triple, return
its error if non-nil, otherwise assert on the contents. -/
def AssertLicenseDir (cover : List UInt8 → Option Coverage)
    (readFile : String → Except GoError (List UInt8))
    (dir : Except GoError (List String))
    (want : LType) (percent : ℚ) : Option GoError :=
  let r := ReadLicenseDir readFile dir
  match r.err with
  | some e => some e
  | none => assertLicense cover r.contents want percent

/-- `AssertLicense` of `check.go`: same, in the working directory. -/
def AssertLicense (cover : List UInt8 → Option Coverage)
    (readFile : String → Except GoError (List UInt8))
    (openDot : Except GoError (Except GoError (List String)))
    (want : LType) (percent : ℚ) : Option GoError :=
  let r := ReadLicense readFile openDot
  match r.err with
  | some e => some e
  | none => assertLicense cover r.contents want percent

/-- `TestPercent` of `check.go`: `t.Fatal(err)` on a non-nil assertion
error; the returned value is the message passed to `t.Fatal`, if any. -/
def TestPercent (cover : List UInt8 → Option Coverage)
    (readFile : String → Except GoError (List UInt8))
    (openDot : Except GoError (Except GoError (List String)))
    (want : LType) (percent : ℚ) : Option String :=
  match AssertLicense cover readFile openDot want percent with
  | some e => some e.message
  | none => none

/-- `Test` of `check.go`: `TestPercent(t, want, 90)`. -/
def Test (cover : List UInt8 → Option Coverage)
    (readFile : String → Except GoError (List UInt8))
    (openDot : Except GoError (Except GoError (List String)))
    (want : LType) : Option String :=
  TestPercent cover readFile openDot want 90

/-! A model filesystem with several directories, used to compare the
directory that the capability lists with the directory that
`ioutil.ReadFile` actually reads from (the process working directory). -/

/-- A filesystem: directory paths mapped to entries (name, contents),
plus the process working directory. -/
structure MFS where
  dirs : List (String × List (String × List UInt8))
  cwd : String

/-- The listing capability for directory `d` of `fs`
(`Readdirnames(0)`: the entry names, in listing order). -/
def MFS.listDir (fs : MFS) (d : String) : Except GoError (List String) :=
  match fs.dirs.lookup d with
  | some entries => .ok (entries.map Prod.fst)
  | none => .error .errNotExist

/-- Contents of file `name` inside directory `d` of `fs`. -/
def MFS.fileIn (fs : MFS) (d name : String) : Option (List UInt8) :=
  (fs.dirs.lookup d).bind fun entries => entries.lookup name

/-- `ioutil.ReadFile(name)` on a bare filename: it resolves `name` in
the process working directory `fs.cwd`. -/
def MFS.readFile (fs : MFS) (name : String) : Except GoError (List UInt8) :=
  match fs.fileIn fs.cwd name with
  | some b => .ok b
  | none => .error .errNotExist

/-- `ReadLicenseDir` run against the model filesystem: the capability
lists directory `d`, while the read step resolves the bare filename in
the working directory `fs.cwd`. -/
def ReadLicenseDirIn (fs : MFS) (d : String) : ReadResult :=
  ReadLicenseDir fs.readFile (fs.listDir d)

/-! ### Helper lemmas -/

theorem tableGet_mem : ∀ (t : List (Char × Char)) (c d : Char),
    tableGet t c = some d → (c, d) ∈ t
  | [], c, d, h => by simp [tableGet] at h
  | (k, v) :: rest, c, d, h => by
    rw [tableGet] at h
    by_cases hc : c = k
    · rw [if_pos hc] at h
      cases h
      subst hc
      exact List.mem_cons_self _ _
    · rw [if_neg hc] at h
      exact List.mem_cons_of_mem _ (tableGet_mem rest c d h)

/-- No value of the lowercase table is itself a key of the table. -/
theorem lowerTable_value_fixed :
    ∀ p ∈ lowerTable, tableGet lowerTable p.2 = none := by decide

/-- For ASCII keys of the uppercase table, mapping the value back down
recovers the lowercase form of the key. -/
theorem upperTable_ascii_roundtrip :
    ∀ p ∈ upperTable, p.1.toNat < 128 → toLowerChar p.2 = toLowerChar p.1 := by
  decide

theorem toLowerChar_idem (c : Char) :
    toLowerChar (toLowerChar c) = toLowerChar c := by
  unfold toLowerChar
  cases h : tableGet lowerTable c with
  | none => simp [h]
  | some d =>
    simp only [h, Option.getD_some]
    have hv : tableGet lowerTable d = none :=
      lowerTable_value_fixed (c, d) (tableGet_mem _ _ _ h)
    simp [hv]

theorem toLowerChar_toUpperChar (c : Char) (h : c.toNat < 128) :
    toLowerChar (toUpperChar c) = toLowerChar c := by
  unfold toUpperChar
  cases hu : tableGet upperTable c with
  | none => simp
  | some d =>
    simpa using upperTable_ascii_roundtrip (c, d) (tableGet_mem _ _ _ hu) h

theorem toLowerStr_idem (s : String) :
    toLowerStr (toLowerStr s) = toLowerStr s := by
  show String.mk ((s.data.map toLowerChar).map toLowerChar)
      = String.mk (s.data.map toLowerChar)
  rw [List.map_map]
  exact congrArg String.mk (List.map_congr_left fun c _ => toLowerChar_idem c)

theorem toLowerStr_toUpperStr (s : String) (h : isASCIIStr s) :
    toLowerStr (toUpperStr s) = toLowerStr s := by
  show String.mk ((s.data.map toUpperChar).map toLowerChar)
      = String.mk (s.data.map toLowerChar)
  rw [List.map_map]
  exact congrArg String.mk
    (List.map_congr_left fun c hc => toLowerChar_toUpperChar c (h c hc))

/-- The lookup set built by `init` is exactly the allowlist, lowercased
entrywise (computed). -/
theorem filenames_eq : filenames = Filenames.map toLowerStr := by decide

theorem isLicenseFilename_iff (s : String) :
    IsLicenseFilename s = true ↔ ∃ e ∈ Filenames, toLowerStr s = toLowerStr e := by
  unfold IsLicenseFilename
  rw [decide_eq_true_iff, filenames_eq, List.mem_map]
  constructor
  · rintro ⟨e, he, h⟩
    exact ⟨e, he, h.symm⟩
  · rintro ⟨e, he, h⟩
    exact ⟨e, he, h.symm⟩

/-- The scan loop at a listing whose names are all unrecognized. -/
theorem scanNames_none (readFile : String → Except GoError (List UInt8)) :
    ∀ (names : List String), (∀ m ∈ names, IsLicenseFilename m = false) →
      scanNames readFile names = ⟨"", [], some .errNotExist⟩ := by
  intro names
  induction names with
  | nil => intro _; rfl
  | cons n rest ih =>
    intro h
    have hn : IsLicenseFilename n = false := h n (by simp)
    rw [scanNames, if_neg (by simp [hn])]
    exact ih fun m hm => h m (List.mem_cons_of_mem _ hm)

/-- The scan loop at a listing whose first recognized name is `n`: the
scan stops at `n`, reads it, and never looks at the names after it. -/
theorem scanNames_first (readFile : String → Except GoError (List UInt8)) :
    ∀ (pre : List String) (n : String) (post : List String),
      (∀ m ∈ pre, IsLicenseFilename m = false) → IsLicenseFilename n = true →
      scanNames readFile (pre ++ n :: post) =
        match readFile n with
        | .ok b => ⟨n, b, none⟩
        | .error e => ⟨n, [], some e⟩ := by
  intro pre
  induction pre with
  | nil =>
    intro n post _ hn
    rw [List.nil_append, scanNames, if_pos (by simp [hn])]
  | cons p rest ih =>
    intro n post hpre hn
    have hp : IsLicenseFilename p = false := hpre p (by simp)
    rw [List.cons_append, scanNames, if_neg (by simp [hp])]
    exact ih n post (fun m hm => hpre m (List.mem_cons_of_mem _ hm)) hn

/-- The match loop at a list whose prefix has no match of the wanted
type and then hits one: it returns `nil` there. -/
theorem assertLoop_found (want : LType) :
    ∀ (pre : List Match) (acc : List String) (m : Match) (post : List Match),
      m.typ = want → (∀ m2 ∈ pre, m2.typ ≠ want) →
      assertLoop want acc (pre ++ m :: post) = none := by
  intro pre
  induction pre with
  | nil =>
    intro acc m post hm _
    rw [List.nil_append, assertLoop, if_pos hm]
  | cons p rest ih =>
    intro acc m post hm hpre
    have hp : p.typ ≠ want := hpre p (by simp)
    rw [List.cons_append, assertLoop, if_neg hp]
    exact ih _ m post hm fun m2 h2 => hpre m2 (List.mem_cons_of_mem _ h2)

/-- The match loop at a list with no match of the wanted type: every
match is rendered and appended, then the joined list is reported. -/
theorem assertLoop_none (want : LType) :
    ∀ (ms : List Match) (acc : List String), (∀ m ∈ ms, m.typ ≠ want) →
      assertLoop want acc ms = some (.errString ("license does not match. found: "
        ++ String.intercalate "," (acc ++ ms.map fmtMatch))) := by
  intro ms
  induction ms with
  | nil =>
    intro acc _
    simp [assertLoop]
  | cons m rest ih =>
    intro acc hm
    have h : m.typ ≠ want := hm m (by simp)
    rw [assertLoop, if_neg h,
      ih (acc ++ [fmtMatch m]) fun m2 h2 => hm m2 (List.mem_cons_of_mem _ h2)]
    simp

theorem ReadLicenseDir_ok (readFile : String → Except GoError (List UInt8))
    (names : List String) :
    ReadLicenseDir readFile (.ok names) = scanNames readFile names := rfl

theorem AssertLicenseDir_eq (cover : List UInt8 → Option Coverage)
    (readFile : String → Except GoError (List UInt8))
    (dir : Except GoError (List String)) (want : LType) (percent : ℚ) :
    AssertLicenseDir cover readFile dir want percent =
      match (ReadLicenseDir readFile dir).err with
      | some e => some e
      | none => assertLicense cover (ReadLicenseDir readFile dir).contents want percent := rfl

/-- `scanNames_first`, specialized to a successful read. -/
theorem scanNames_first_ok (readFile : String → Except GoError (List UInt8))
    (pre : List String) (n : String) (post : List String) (b : List UInt8)
    (hpre : ∀ m ∈ pre, IsLicenseFilename m = false)
    (hn : IsLicenseFilename n = true) (hread : readFile n = .ok b) :
    scanNames readFile (pre ++ n :: post) = ⟨n, b, none⟩ := by
  rw [scanNames_first readFile pre n post hpre hn, hread]

/-- `scanNames_first`, specialized to a failing read. -/
theorem scanNames_first_error (readFile : String → Except GoError (List UInt8))
    (pre : List String) (n : String) (post : List String) (e : GoError)
    (hpre : ∀ m ∈ pre, IsLicenseFilename m = false)
    (hn : IsLicenseFilename n = true) (hread : readFile n = .error e) :
    scanNames readFile (pre ++ n :: post) = ⟨n, [], some e⟩ := by
  rw [scanNames_first readFile pre n post hpre hn, hread]

/-! ### Claim theorems -/

/-- C6: `IsLicenseFilename name` returns true iff the lowercased form
of `name` exactly equals the lowercased form of some entry of the fixed
allowlist `Filenames` (no partial matching, no extension heuristics);
in particular `IsLicenseFilename "README.md"` returns false. -/
theorem c6_exact_allowlist_membership :
    (∀ s : String, IsLicenseFilename s = true ↔
      ∃ e ∈ Filenames, toLowerStr s = toLowerStr e) ∧
    IsLicenseFilename "README.md" = false :=
  ⟨isLicenseFilename_iff, by decide⟩

/-- Witness for C6 at the concrete strings "LiCenSe.md" and
"README.md". -/
theorem c6_exact_allowlist_membership_witness :
    (IsLicenseFilename "LiCenSe.md" = true ↔
      ∃ e ∈ Filenames, toLowerStr "LiCenSe.md" = toLowerStr e) ∧
    IsLicenseFilename "README.md" = false :=
  ⟨c6_exact_allowlist_membership.1 "LiCenSe.md",
   c6_exact_allowlist_membership.2⟩

/-- C9: the lowercased forms of the 40 `Filenames` entries are pairwise
distinct, and the lookup set built at initialization holds exactly
those lowercased names (each appearing exactly once); the set is a pure
value, never mutated afterward. -/
theorem c9_lookup_set_invariant :
    (Filenames.map toLowerStr).Nodup ∧
    Filenames.length = 40 ∧
    filenames = Filenames.map toLowerStr ∧
    ∀ x : String, x ∈ filenames ↔ x ∈ Filenames.map toLowerStr :=
  ⟨by decide, by decide, filenames_eq, fun x => by rw [filenames_eq]⟩

/-- Witness for C9 at the concrete key "copying". -/
theorem c9_lookup_set_invariant_witness :
    "copying" ∈ filenames ↔ "copying" ∈ Filenames.map toLowerStr :=
  c9_lookup_set_invariant.2.2.2 "copying"

/-- C5 is false as stated: for the string "lıcense" (with U+0131,
dotless ı, whose Unicode simple uppercase is `I`), `IsLicenseFilename`
returns false, yet on its uppercased form "LICENSE" it returns true,
so `IsLicenseFilename s = IsLicenseFilename (toUpperStr s)` fails. -/
theorem c5_counterexample :
    IsLicenseFilename "lıcense" = false ∧
    toUpperStr "lıcense" = "LICENSE" ∧
    IsLicenseFilename (toUpperStr "lıcense") = true ∧
    ¬ IsLicenseFilename "lıcense" = IsLicenseFilename (toUpperStr "lıcense") := by
  decide

/-- C5 amended: `IsLicenseFilename s = IsLicenseFilename (toLowerStr s)`
for every string, and both equalities (lowercased and uppercased form)
hold for every ASCII string; the uppercase leg is what fails beyond
ASCII. -/
theorem c5_case_insensitivity_amended :
    (∀ s : String, IsLicenseFilename s = IsLicenseFilename (toLowerStr s)) ∧
    (∀ s : String, isASCIIStr s →
      IsLicenseFilename s = IsLicenseFilename (toLowerStr s) ∧
      IsLicenseFilename s = IsLicenseFilename (toUpperStr s)) := by
  have hl : ∀ s : String, IsLicenseFilename s = IsLicenseFilename (toLowerStr s) := by
    intro s
    unfold IsLicenseFilename
    rw [toLowerStr_idem]
  refine ⟨hl, fun s hs => ⟨hl s, ?_⟩⟩
  unfold IsLicenseFilename
  rw [toLowerStr_toUpperStr s hs]

/-- Witness for the amended C5 at the concrete ASCII string
"License.TXT". -/
theorem c5_case_insensitivity_amended_witness :
    isASCIIStr "License.TXT" ∧
    IsLicenseFilename "License.TXT" = IsLicenseFilename (toLowerStr "License.TXT") ∧
    IsLicenseFilename "License.TXT" = IsLicenseFilename (toUpperStr "License.TXT") :=
  ⟨by decide,
   (c5_case_insensitivity_amended.2 "License.TXT" (by decide)).1,
   (c5_case_insensitivity_amended.2 "License.TXT" (by decide)).2⟩

/-- A filesystem on which the listed directory and the process working
directory both hold a file "LICENSE", with different contents. -/
def c1fs : MFS :=
  ⟨[("/listed", [("LICENSE", [65])]), ("/work", [("LICENSE", [66])])], "/work"⟩

/-- C1 is false as stated: on `c1fs`, listing "/listed" yields the
recognized name "LICENSE", whose contents in the listed directory are
`[65]`; yet `ReadLicenseDir` returns `[66]`, the contents of the
like-named file in the process working directory, because the read
step resolves the bare filename there. -/
theorem c1_counterexample :
    c1fs.listDir "/listed" = .ok ["LICENSE"] ∧
    IsLicenseFilename "LICENSE" = true ∧
    c1fs.fileIn "/listed" "LICENSE" = some [65] ∧
    (ReadLicenseDirIn c1fs "/listed").err = none ∧
    (ReadLicenseDirIn c1fs "/listed").filename = "LICENSE" ∧
    (ReadLicenseDirIn c1fs "/listed").contents = [66] ∧
    ¬ (ReadLicenseDirIn c1fs "/listed").contents = [65] :=
  ⟨rfl, by decide, rfl, by decide, by decide, by decide, by decide⟩

/-- C1 amended: `ReadLicenseDir` scans the listed names in order,
stops at the first name the recognizer accepts (entries after it are
never considered — the result does not depend on `post`), and returns
that filename together with the bytes produced by reading the bare
filename (resolved relative to the process working directory, which is
the listed directory only when the listing is of the working
directory). -/
theorem c1_first_match_scan (readFile : String → Except GoError (List UInt8))
    (pre : List String) (n : String) (post : List String)
    (hpre : ∀ m ∈ pre, IsLicenseFilename m = false)
    (hn : IsLicenseFilename n = true) :
    ReadLicenseDir readFile (.ok (pre ++ n :: post)) =
      match readFile n with
      | .ok b => ⟨n, b, none⟩
      | .error e => ⟨n, [], some e⟩ := by
  unfold ReadLicenseDir
  exact scanNames_first readFile pre n post hpre hn

/-- Witness for the amended C1: "LICENSE" is picked out of the listing
`["README.md", "LICENSE", "COPYING"]` and its bytes are returned. -/
theorem c1_first_match_scan_witness :
    ReadLicenseDir (fun _ => .ok [77, 73, 84]) (.ok ["README.md", "LICENSE", "COPYING"])
      = ⟨"LICENSE", [77, 73, 84], none⟩ :=
  c1_first_match_scan (fun _ => .ok [77, 73, 84]) ["README.md"] "LICENSE" ["COPYING"]
    (by decide) (by decide)

/-- A scorer that always reports a 95% MIT coverage. -/
def coverMIT : List UInt8 → Option Coverage :=
  fun _ => some ⟨95, [⟨"MIT", 5, 95⟩]⟩

/-- A scorer that never finds any coverage (`ok` false). -/
def coverNever : List UInt8 → Option Coverage :=
  fun _ => none

/-- A read step on which every bare filename reads the bytes `[77]`. -/
def readConst : String → Except GoError (List UInt8) :=
  fun _ => .ok [77]

/-- C4 is false as stated: the two not-found conditions do not collapse
to the same signal.  With no recognized directory entry the assertion
fails with the sentinel `os.ErrNotExist` (message "file does not
exist"); with zero scorer coverage it fails with
`errors.New("license not found")` — distinct error values with
distinct messages. -/
theorem c4_counterexample :
    AssertLicenseDir coverMIT readConst (.ok ["README.md", "main.go"]) 5 90
      = some .errNotExist ∧
    AssertLicenseDir coverNever readConst (.ok ["LICENSE"]) 5 90
      = some (.errString "license not found") ∧
    ¬ GoError.errNotExist = GoError.errString "license not found" ∧
    GoError.message .errNotExist = "file does not exist" ∧
    GoError.message (.errString "license not found") = "license not found" ∧
    ¬ GoError.message .errNotExist = GoError.message (.errString "license not found") := by
  decide

/-- C4 amended: each not-found condition is a terminal "not found"
failure, but they carry distinct signals: no allowlisted entry in the
listing yields `os.ErrNotExist`, while zero coverage on a read
candidate yields `errors.New("license not found")`. -/
theorem c4_not_found_signals (cover : List UInt8 → Option Coverage)
    (readFile : String → Except GoError (List UInt8))
    (want : LType) (percent : ℚ) :
    (∀ names : List String, (∀ m ∈ names, IsLicenseFilename m = false) →
      AssertLicenseDir cover readFile (.ok names) want percent = some .errNotExist) ∧
    (∀ (pre : List String) (n : String) (post : List String) (b : List UInt8),
      (∀ m ∈ pre, IsLicenseFilename m = false) → IsLicenseFilename n = true →
      readFile n = .ok b → cover b = none →
      AssertLicenseDir cover readFile (.ok (pre ++ n :: post)) want percent
        = some (.errString "license not found")) := by
  constructor
  · intro names h
    rw [AssertLicenseDir_eq, ReadLicenseDir_ok, scanNames_none readFile names h]
  · intro pre n post b hpre hn hread hcov
    rw [AssertLicenseDir_eq, ReadLicenseDir_ok,
      scanNames_first_ok readFile pre n post b hpre hn hread]
    show assertLicense cover b want percent = _
    unfold assertLicense
    rw [hcov]

/-- Witness for the amended C4 at two concrete directory listings. -/
theorem c4_not_found_signals_witness :
    AssertLicenseDir coverNever readConst (.ok ["README.md", "main.go"]) 5 90
      = some .errNotExist ∧
    AssertLicenseDir coverNever readConst (.ok (["README.md"] ++ "LICENSE" :: [])) 5 90
      = some (.errString "license not found") :=
  ⟨(c4_not_found_signals coverNever readConst 5 90).1 ["README.md", "main.go"] (by decide),
   (c4_not_found_signals coverNever readConst 5 90).2 ["README.md"] "LICENSE" [] [77]
     (by decide) (by decide) rfl rfl⟩

/-- C7: I/O errors pass through unchanged.  A directory-listing error
`e` is returned as-is by `ReadLicenseDir` and `AssertLicenseDir`; a
read error `e` on the recognized file is likewise returned as-is, and
`ReadLicenseDir` still reports the found filename alongside it. -/
theorem c7_io_error_passthrough (cover : List UInt8 → Option Coverage)
    (readFile : String → Except GoError (List UInt8))
    (want : LType) (percent : ℚ) :
    (∀ e : GoError,
      ReadLicenseDir readFile (.error e) = ⟨"", [], some e⟩ ∧
      AssertLicenseDir cover readFile (.error e) want percent = some e) ∧
    (∀ (pre : List String) (n : String) (post : List String) (e : GoError),
      (∀ m ∈ pre, IsLicenseFilename m = false) → IsLicenseFilename n = true →
      readFile n = .error e →
      ReadLicenseDir readFile (.ok (pre ++ n :: post)) = ⟨n, [], some e⟩ ∧
      AssertLicenseDir cover readFile (.ok (pre ++ n :: post)) want percent = some e) := by
  constructor
  · intro e
    exact ⟨rfl, rfl⟩
  · intro pre n post e hpre hn hread
    have hscan : ReadLicenseDir readFile (.ok (pre ++ n :: post)) = ⟨n, [], some e⟩ := by
      rw [ReadLicenseDir_ok, scanNames_first_error readFile pre n post e hpre hn hread]
    refine ⟨hscan, ?_⟩
    rw [AssertLicenseDir_eq, hscan]

/-- Witness for C7: a listing error and a read error, both propagated
unchanged. -/
theorem c7_io_error_passthrough_witness :
    ReadLicenseDir (fun _ => .error (.errString "boom")) (.error (.errString "denied"))
      = ⟨"", [], some (.errString "denied")⟩ ∧
    ReadLicenseDir (fun _ => .error (.errString "boom")) (.ok (["README.md"] ++ "LICENSE" :: []))
      = ⟨"LICENSE", [], some (.errString "boom")⟩ :=
  ⟨((c7_io_error_passthrough coverNever (fun _ => .error (.errString "boom")) 5 90).1
      (.errString "denied")).1,
   ((c7_io_error_passthrough coverNever (fun _ => .error (.errString "boom")) 5 90).2
      ["README.md"] "LICENSE" [] (.errString "boom") (by decide) (by decide) rfl).1⟩

/-- `assertLicense` when the scorer reports a coverage. -/
theorem assertLicense_cov (cover : List UInt8 → Option Coverage) (b : List UInt8)
    (want : LType) (percent : ℚ) (cov : Coverage) (hcov : cover b = some cov) :
    assertLicense cover b want percent =
      if cov.percent < percent then
        some (.errString ("percentage " ++ fmtF cov.percent
          ++ " is less than wanted " ++ fmtF percent))
      else assertLoop want [] cov.matchList := by
  unfold assertLicense
  simp only [hcov]

/-- C2: with adequate coverage, the matches are scanned in scorer
order; the scan returns `nil` at the first match whose type equals
`want`, and if no match has that type it fails with the message listing
every found match (rendered `Name(Percent%)`) comma-joined, in scorer
order. -/
theorem c2_first_type_wins (cover : List UInt8 → Option Coverage) (b : List UInt8)
    (want : LType) (percent : ℚ) (cov : Coverage)
    (hcov : cover b = some cov) (hp : ¬ cov.percent < percent) :
    (∀ (pre : List Match) (m : Match) (post : List Match),
      cov.matchList = pre ++ m :: post → m.typ = want →
      (∀ m2 ∈ pre, m2.typ ≠ want) →
      assertLicense cover b want percent = none) ∧
    ((∀ m ∈ cov.matchList, m.typ ≠ want) →
      assertLicense cover b want percent = some (.errString
        ("license does not match. found: "
          ++ String.intercalate "," (cov.matchList.map fmtMatch)))) := by
  rw [assertLicense_cov cover b want percent cov hcov, if_neg hp]
  constructor
  · intro pre m post hsplit hm hpre
    rw [hsplit]
    exact assertLoop_found want pre [] m post hm hpre
  · intro hall
    rw [assertLoop_none want cov.matchList [] hall, List.nil_append]

/-- Witness for C2: a single 95% MIT match passes for the MIT type
(`5`) and fails for another type (`7`) with the full found list. -/
theorem c2_first_type_wins_witness :
    assertLicense coverMIT [77] 5 90 = none ∧
    assertLicense coverMIT [77] 7 90
      = some (.errString "license does not match. found: MIT(95.0%)") := by
  constructor
  · exact (c2_first_type_wins coverMIT [77] 5 90 ⟨95, [⟨"MIT", 5, 95⟩]⟩ rfl
      (by norm_num)).1 [] ⟨"MIT", 5, 95⟩ [] rfl rfl (by simp)
  · have h := (c2_first_type_wins coverMIT [77] 7 90 ⟨95, [⟨"MIT", 5, 95⟩]⟩ rfl
      (by norm_num)).2 (by decide)
    rw [h]
    decide

/-- C3: a coverage percentage strictly below the threshold fails with
the actual-versus-wanted message, and the per-match comparison is never
reached: replacing the match list by any other list leaves the outcome
unchanged. -/
theorem c3_below_threshold (cover : List UInt8 → Option Coverage) (b : List UInt8)
    (want : LType) (percent : ℚ) (cov : Coverage)
    (hcov : cover b = some cov) (hlt : cov.percent < percent) :
    assertLicense cover b want percent = some (.errString
      ("percentage " ++ fmtF cov.percent ++ " is less than wanted " ++ fmtF percent)) ∧
    ∀ ms : List Match,
      assertLicense (fun x => if x = b then some ⟨cov.percent, ms⟩ else cover x)
          b want percent
        = assertLicense cover b want percent := by
  have h1 : assertLicense cover b want percent = some (.errString
      ("percentage " ++ fmtF cov.percent ++ " is less than wanted " ++ fmtF percent)) := by
    rw [assertLicense_cov cover b want percent cov hcov, if_pos hlt]
  refine ⟨h1, fun ms => ?_⟩
  have h2 : (fun x => if x = b then some ⟨cov.percent, ms⟩ else cover x) b
      = some (⟨cov.percent, ms⟩ : Coverage) := by simp
  have h3 : assertLicense (fun x => if x = b then some ⟨cov.percent, ms⟩ else cover x)
      b want percent =
      if cov.percent < percent then
        some (.errString ("percentage " ++ fmtF cov.percent
          ++ " is less than wanted " ++ fmtF percent))
      else assertLoop want [] ms :=
    assertLicense_cov _ b want percent ⟨cov.percent, ms⟩ h2
  rw [h3, if_pos hlt, h1]

/-- A scorer that always reports 72% coverage with one MIT match. -/
def cover72 : List UInt8 → Option Coverage :=
  fun _ => some ⟨72, [⟨"MIT", 5, 72⟩]⟩

/-- Witness for C3: 72% against a 90% threshold produces exactly the
message of the spec example. -/
theorem c3_below_threshold_witness :
    assertLicense cover72 [77] 5 90 =
      some (.errString "percentage 72.000000 is less than wanted 90.000000") := by
  have h := (c3_below_threshold cover72 [77] 5 90 ⟨72, [⟨"MIT", 5, 72⟩]⟩ rfl
    (by norm_num)).1
  rw [h]
  decide

/-- C10: with adequate coverage but an empty match list, the scan
still fails, with the type-mismatch message over an empty found list. -/
theorem c10_empty_match_list (cover : List UInt8 → Option Coverage) (b : List UInt8)
    (want : LType) (percent : ℚ) (p : ℚ)
    (hcov : cover b = some ⟨p, []⟩) (hp : ¬ p < percent) :
    assertLicense cover b want percent
      = some (.errString "license does not match. found: ") := by
  have h : assertLicense cover b want percent =
      if p < percent then
        some (.errString ("percentage " ++ fmtF p ++ " is less than wanted " ++ fmtF percent))
      else assertLoop want [] [] :=
    assertLicense_cov cover b want percent ⟨p, []⟩ hcov
  rw [h, if_neg hp, assertLoop_none want [] [] (by simp)]
  rfl

/-- A scorer reporting 95% coverage with an empty match list. -/
def cover95empty : List UInt8 → Option Coverage :=
  fun _ => some ⟨95, []⟩

/-- Witness for C10 at a concrete 95%-coverage, zero-match scorer. -/
theorem c10_empty_match_list_witness :
    assertLicense cover95empty [77] 5 90
      = some (.errString "license does not match. found: ") :=
  c10_empty_match_list cover95empty [77] 5 90 95 rfl (by norm_num)

/-- C8: `Test` is exactly `TestPercent` at the fixed threshold 90;
both wrappers do nothing when the assertion succeeds and report the
assertion error (its message, via `t.Fatal`) when it fails. -/
theorem c8_test_wrappers (cover : List UInt8 → Option Coverage)
    (readFile : String → Except GoError (List UInt8))
    (openDot : Except GoError (Except GoError (List String))) (want : LType) :
    Test cover readFile openDot want = TestPercent cover readFile openDot want 90 ∧
    ∀ percent : ℚ,
      (AssertLicense cover readFile openDot want percent = none →
        TestPercent cover readFile openDot want percent = none) ∧
      ∀ e : GoError, AssertLicense cover readFile openDot want percent = some e →
        TestPercent cover readFile openDot want percent = some e.message := by
  refine ⟨rfl, fun percent => ⟨fun h => ?_, fun e h => ?_⟩⟩
  · unfold TestPercent
    rw [h]
  · unfold TestPercent
    rw [h]

/-- Witness for C8 at a concrete passing and a concrete failing run. -/
theorem c8_test_wrappers_witness :
    Test coverMIT readConst (.ok (.ok ["LICENSE"])) 5
      = TestPercent coverMIT readConst (.ok (.ok ["LICENSE"])) 5 90 ∧
    TestPercent coverMIT readConst (.ok (.ok ["LICENSE"])) 5 90 = none ∧
    TestPercent coverNever readConst (.ok (.ok ["LICENSE"])) 5 90
      = some "license not found" := by
  refine ⟨(c8_test_wrappers coverMIT readConst (.ok (.ok ["LICENSE"])) 5).1, ?_, ?_⟩
  · exact ((c8_test_wrappers coverMIT readConst (.ok (.ok ["LICENSE"])) 5).2 90).1
      (by decide)
  · exact ((c8_test_wrappers coverNever readConst (.ok (.ok ["LICENSE"])) 5).2 90).2
      (.errString "license not found") (by decide)

end Testlicense
